import Mathlib

/-!
# Verification of the `outlook_todo` synchroniser

A shallow embedding of the core of the `outlook_todo` package
(`models.py`, `storage.py`, `graph.py`, `todo_app.py`) together with
proofs and refutations of the specification's claims.

Modelling conventions:

* A Python `datetime` is `PyDateTime`: the wall-clock reading encoded as
  a single integer of microseconds (`wallMicro`), together with the
  UTC offset in minutes (`tz`), `none` meaning a naive datetime.
  Comparison of aware datetimes in Python uses the UTC instant
  `wallMicro - tz·60·10^6`.
* An ISO-8601 timestamp string is `IsoTs`: the same wall-clock integer
  plus its suffix — an explicit offset, a trailing `Z`, or no offset at
  all.  Malformed strings (which Python's `fromisoformat` rejects) are
  outside the model; every `IsoTs` is a lexically valid timestamp.
* Python dicts keyed by `message_id` are association lists in insertion
  order, matching dict iteration order; overwriting an existing key
  keeps its position, a fresh key is appended.
* Exceptions are `Except PyError`; `sorted` is Mathlib's
  `List.insertionSort`, which is exactly the stable sort Python's
  `sorted` implements.
* The filesystem directory used by `export_active_markdown` is an
  association list from filename to file content.
-/

namespace OutlookTodo

/-- Offset suffix carried by an ISO-8601 timestamp string: an explicit
`+HH:MM` offset (in minutes), a trailing `Z`, or nothing. -/
inductive IsoSuffix where
  | noOffset : IsoSuffix
  | zulu : IsoSuffix
  | offset (minutes : Int) : IsoSuffix
  deriving DecidableEq

/-- A lexically valid ISO-8601 timestamp string: the wall-clock part
(read as microseconds since the epoch at that wall-clock reading) and the
offset suffix. -/
structure IsoTs where
  wallMicro : Int
  suffix : IsoSuffix
  deriving DecidableEq

/-- A Python `datetime`: wall-clock reading in microseconds and an
optional UTC offset in minutes (`none` = timezone-naive). -/
structure PyDateTime where
  wallMicro : Int
  tz : Option Int
  deriving DecidableEq

/-- The UTC instant of an aware datetime, used by Python's `<`/`==` on
aware datetimes (store contents are always aware; the `getD 0` branch is
never exercised by aware values). -/
def PyDateTime.utcMicro (d : PyDateTime) : Int :=
  d.wallMicro - (d.tz.getD 0) * 60000000

/-- `datetime.isoformat()`: renders the wall clock and, for an aware
value, its explicit offset; never produces a trailing `Z`. -/
def pyIsoformat (d : PyDateTime) : IsoTs :=
  match d.tz with
  | some o => ⟨d.wallMicro, .offset o⟩
  | none => ⟨d.wallMicro, .noOffset⟩

/-- `datetime.fromisoformat`: an explicit offset yields an aware value,
no offset yields a naive one.  (The `zulu` branch models Python ≥ 3.11;
the package always rewrites `Z` before calling `fromisoformat`, so the
branch is unreachable from the embedded code.) -/
def pyFromIsoformat : IsoTs → PyDateTime
  | ⟨w, .noOffset⟩ => ⟨w, none⟩
  | ⟨w, .offset o⟩ => ⟨w, some o⟩
  | ⟨w, .zulu⟩ => ⟨w, some 0⟩

/-- `models._parse_datetime`: replace a trailing `Z` by `+00:00`, then
`fromisoformat`. -/
def parse_datetime (s : IsoTs) : PyDateTime :=
  pyFromIsoformat (match s.suffix with
    | .zulu => ⟨s.wallMicro, .offset 0⟩
    | _ => s)

/-- Error taxonomy of the embedded code: `ValueError` for naive
timestamps, `KeyError` for duplicate/missing ids, `GraphApiError` for a
failed gateway call (carrying the upstream status). -/
inductive PyError where
  | naiveTimestamp : PyError
  | duplicateKey (id : String) : PyError
  | notFound (id : String) : PyError
  | gatewayFailure (status : Int) : PyError
  deriving DecidableEq

/-- `models.TodoItem` (field for field). -/
structure TodoItem where
  message_id : String
  subject : String
  sender : String
  received_at : PyDateTime
  scheduled_for : PyDateTime
  body_preview : String
  web_link : Option String
  completed : Bool
  created_at : PyDateTime
  deriving DecidableEq

/-- `TodoItem(...)` construction including `__post_init__`: naive
`received_at` or `scheduled_for` raises `ValueError` (via `_ensure_tz`);
a naive `created_at` is silently coerced to UTC by
`replace(tzinfo=timezone.utc)`, which keeps the wall clock and sets the
offset to zero. -/
def mkTodoItem (message_id subject sender : String)
    (received_at scheduled_for : PyDateTime) (body_preview : String)
    (web_link : Option String) (completed : Bool) (created_at : PyDateTime) :
    Except PyError TodoItem :=
  if received_at.tz.isNone then .error .naiveTimestamp
  else if scheduled_for.tz.isNone then .error .naiveTimestamp
  else .ok
    { message_id, subject, sender, received_at, scheduled_for,
      body_preview, web_link, completed,
      created_at :=
        if created_at.tz.isNone then ⟨created_at.wallMicro, some 0⟩
        else created_at }

/-- The JSON-compatible dictionary produced by `TodoItem.to_dict`
(`created_at` is optional because legacy persisted documents may lack
it; `to_dict` itself always emits it). -/
structure RecordDoc where
  message_id : String
  subject : String
  sender : String
  received_at : IsoTs
  scheduled_for : IsoTs
  body_preview : String
  web_link : Option String
  completed : Bool
  created_at : Option IsoTs
  deriving DecidableEq

/-- `TodoItem.to_dict`. -/
def TodoItem.to_dict (i : TodoItem) : RecordDoc :=
  { message_id := i.message_id
    subject := i.subject
    sender := i.sender
    received_at := pyIsoformat i.received_at
    scheduled_for := pyIsoformat i.scheduled_for
    body_preview := i.body_preview
    web_link := i.web_link
    completed := i.completed
    created_at := some (pyIsoformat i.created_at) }

/-- `TodoItem.from_dict`: parse the timestamps (a missing `created_at`
defaults to `datetime.now(timezone.utc)`, the `now` argument) and run the
constructor, which re-validates timezone-awareness. -/
def TodoItem.from_dict (payload : RecordDoc) (now : PyDateTime) :
    Except PyError TodoItem :=
  mkTodoItem payload.message_id payload.subject payload.sender
    (parse_datetime payload.received_at) (parse_datetime payload.scheduled_for)
    payload.body_preview payload.web_link payload.completed
    (parse_datetime (payload.created_at.getD (pyIsoformat now)))

/-! ## Storage (`storage.py`)

`TodoStorage._items` is a Python dict from `message_id` to `TodoItem`,
modelled as an association list in insertion order. -/

/-- Dict assignment `d[k] = v`: overwrite in place if the key exists,
else append. -/
def dictInsert {α : Type} (k : String) (v : α) (l : List (String × α)) :
    List (String × α) :=
  if l.any (fun p => p.1 = k) then
    l.map (fun p => if p.1 = k then (k, v) else p)
  else l ++ [(k, v)]

/-- `message_id in self._items` (`TodoStorage.__contains__`). -/
def storContains (items : List (String × TodoItem)) (message_id : String) : Bool :=
  items.any (fun p => p.1 = message_id)

/-- `TodoStorage.get`. -/
def storGet (items : List (String × TodoItem)) (message_id : String) :
    Option TodoItem :=
  (items.find? (fun p => p.1 = message_id)).map Prod.snd

/-- `TodoStorage.add`. -/
def storAdd (items : List (String × TodoItem)) (item : TodoItem)
    (overwrite : Bool) : Except PyError (List (String × TodoItem)) :=
  if !overwrite && storContains items item.message_id then
    .error (.duplicateKey item.message_id)
  else .ok (dictInsert item.message_id item items)

/-- `TodoStorage.update`. -/
def storUpdate (items : List (String × TodoItem)) (item : TodoItem) :
    Except PyError (List (String × TodoItem)) :=
  if storContains items item.message_id then
    .ok (dictInsert item.message_id item items)
  else .error (.notFound item.message_id)

/-- `TodoStorage.remove`. -/
def storRemove (items : List (String × TodoItem)) (message_id : String) :
    List (String × TodoItem) :=
  items.filter (fun p => p.1 ≠ message_id)

/-- The sort key relation of `TodoStorage.all`:
`key=lambda item: item.scheduled_for`, compared as aware datetimes, i.e.
by UTC instant. -/
def schedLe (a b : TodoItem) : Prop :=
  a.scheduled_for.utcMicro ≤ b.scheduled_for.utcMicro

instance : DecidableRel schedLe := fun a b =>
  inferInstanceAs (Decidable (_ ≤ _))

instance : IsTotal TodoItem schedLe :=
  ⟨fun a b => Int.le_total _ _⟩

instance : IsTrans TodoItem schedLe :=
  ⟨fun _ _ _ h h' => le_trans h h'⟩

/-- `TodoStorage.all`: the dict's values, stably sorted ascending by
`scheduled_for` (Python's `sorted` is a stable sort, so equal keys keep
dict insertion order — `insertionSort` has exactly these semantics). -/
def storAll (items : List (String × TodoItem)) : List TodoItem :=
  List.insertionSort schedLe (items.map Prod.snd)

/-- The combined state of a `TodoStorage`: the in-memory dict, the
persisted file content (`none` until the first save if no file existed),
and a counter of `save()` invocations. -/
structure AppState where
  items : List (String × TodoItem)
  savedFile : Option (List RecordDoc)
  saveCount : Nat
  deriving DecidableEq

/-- `TodoStorage.save`: serialise every held item, in dict order, and
rewrite the backing file. -/
def storSave (st : AppState) : AppState :=
  { st with
    savedFile := some (st.items.map (fun p => p.2.to_dict))
    saveCount := st.saveCount + 1 }

/-! ## Graph client (`graph.py`)

Only the pure message-to-payload half is embedded; the HTTP plumbing is
an external collaborator.  A gateway snapshot is the message list an
`InMemoryGraphClient` holds: `fetch_unread_emails(limit)` returns its
first `limit` elements. -/

/-- The `emailAddress` sub-dictionary of a Graph message's `from` field.
`none` models an absent (or `null`) key. -/
structure EmailAddress where
  name : Option String
  address : Option String
  deriving DecidableEq

/-- The `from` field of a Graph message. -/
structure FromData where
  emailAddress : Option EmailAddress
  deriving DecidableEq

/-- A message as returned by the Graph API (`$select` fields only).
Optional fields model keys that may be absent or `null`. -/
structure GraphMessage where
  id : String
  subject : Option String
  fromAddr : Option FromData
  receivedDateTime : IsoTs
  bodyPreview : Option String
  webLink : Option String
  deriving DecidableEq

/-- Python `x or y` where `x` is an optional string: `None` and `""` are
falsy, any other string is returned unchanged. -/
def pyOrStr (a : Option String) (d : String) : String :=
  match a with
  | none => d
  | some s => if s = "" then d else s

/-- `GraphClient.parse_graph_datetime`: rewrite a trailing `Z` to
`+00:00`, parse, and coerce a still-naive result to UTC via
`replace(tzinfo=timezone.utc)` (wall clock kept, offset set to 0). -/
def parse_graph_datetime (s : IsoTs) : PyDateTime :=
  let dt := pyFromIsoformat (match s.suffix with
    | .zulu => ⟨s.wallMicro, .offset 0⟩
    | _ => s)
  match dt.tz with
  | none => ⟨dt.wallMicro, some 0⟩
  | some _ => dt

/-- `GraphClient.extract_sender`:
`(message.get("from") or {}).get("emailAddress") or {}`, then
`name or address or "Unknown sender"`. -/
def extract_sender (m : GraphMessage) : String :=
  let email_address : EmailAddress :=
    match m.fromAddr with
    | none => ⟨none, none⟩
    | some fd => fd.emailAddress.getD ⟨none, none⟩
  pyOrStr email_address.name (pyOrStr email_address.address "Unknown sender")

/-- The keyword-argument dictionary built by `GraphClient.to_todo_payload`. -/
structure TodoPayload where
  message_id : String
  subject : String
  sender : String
  received_at : PyDateTime
  scheduled_for : PyDateTime
  body_preview : String
  web_link : Option String
  deriving DecidableEq

/-- `GraphClient.to_todo_payload`; `default_schedule or received` uses
`None`-falsiness (datetime objects are always truthy). -/
def to_todo_payload (m : GraphMessage) (default_schedule : Option PyDateTime) :
    TodoPayload :=
  let received := parse_graph_datetime m.receivedDateTime
  let scheduled := default_schedule.getD received
  { message_id := m.id
    subject := pyOrStr m.subject "(no subject)"
    sender := extract_sender m
    received_at := received
    scheduled_for := scheduled
    body_preview := m.bodyPreview.getD ""
    web_link := m.webLink }

/-! ## Application (`todo_app.py`) -/

/-- `TodoItem(**payload)` as called by `sync_unread_emails`: `completed`
defaults to `False` and `created_at` to `datetime.now(timezone.utc)`,
the `now` argument. -/
def buildTodo (m : GraphMessage) (schedule_for : Option PyDateTime)
    (now : PyDateTime) : Except PyError TodoItem :=
  let p := to_todo_payload m schedule_for
  mkTodoItem p.message_id p.subject p.sender p.received_at p.scheduled_for
    p.body_preview p.web_link false now

/-- The `for message in messages` loop of `sync_unread_emails`: skip ids
already in storage, otherwise build the item, `add(..., overwrite=True)`
and append to `new_items`. -/
def syncLoop (schedule_for : Option PyDateTime) (now : PyDateTime) :
    List GraphMessage → List (String × TodoItem) → List TodoItem →
    Except PyError (List (String × TodoItem) × List TodoItem)
  | [], items, new_items => .ok (items, new_items)
  | m :: rest, items, new_items =>
    if storContains items m.id then
      syncLoop schedule_for now rest items new_items
    else
      match buildTodo m schedule_for now with
      | .error e => .error e
      | .ok todo =>
        syncLoop schedule_for now rest (dictInsert m.id todo items)
          (new_items ++ [todo])

/-- `OutlookTodoApp.sync_unread_emails` against a fixed gateway snapshot
`msgs` (the in-memory client's `fetch_unread_emails` returns the first
`limit` messages).  Saves once at the end iff any new item was made. -/
def sync_unread_emails (msgs : List GraphMessage) (limit : Nat)
    (schedule_for : Option PyDateTime) (now : PyDateTime) (st : AppState) :
    Except PyError (List TodoItem × AppState) :=
  match syncLoop schedule_for now (msgs.take limit) st.items [] with
  | .error e => .error e
  | .ok (items, new_items) =>
    let st := { st with items }
    .ok (new_items, if new_items.isEmpty then st else storSave st)

/-- `OutlookTodoApp.mark_done`.  The gateway's `mark_email_as_read` is
the function `gw`; a `.error` result models it raising.  The state is
returned in every branch so that the untouched-on-failure property can
be stated. -/
def mark_done (gw : String → Except PyError Unit) (st : AppState)
    (message_id : String) : Except PyError TodoItem × AppState :=
  match storGet st.items message_id with
  | none => (.error (.notFound message_id), st)
  | some item =>
    if item.completed then (.ok item, st)
    else
      match gw message_id with
      | .error e => (.error e, st)
      | .ok _ =>
        let item' := { item with completed := true }
        match storUpdate st.items item' with
        | .error e => (.error e, st)
        | .ok items' =>
          (.ok item', storSave { st with items := items' })

/-- `OutlookTodoApp.add_manual_item`: synthesises the id
`manual-<len(storage.all())+1>` and adds with `overwrite=True`, then
saves. -/
def add_manual_item (st : AppState) (subject sender : String)
    (scheduled_for : PyDateTime) (body_preview : String)
    (web_link : Option String) (now : PyDateTime) :
    Except PyError (TodoItem × AppState) :=
  let message_id := "manual-" ++ toString ((storAll st.items).length + 1)
  match mkTodoItem message_id subject sender scheduled_for scheduled_for
      body_preview web_link false now with
  | .error e => .error e
  | .ok todo =>
    (storAdd st.items todo true).map (fun items' =>
      (todo, storSave { st with items := items' }))

/-! ## Markdown export (`export_active_markdown`)

The target directory is an association list from filename to content.
`item_to_markdown`'s rendered text is irrelevant to every claim (only
the *file set* and the returned paths are specified), so the export is
embedded generically over the `render` function it calls; the theorems
quantify over it. -/

/-- The whitespace characters `str.strip()` removes (ASCII subset). -/
def isPyWhitespace (c : Char) : Bool :=
  c == ' ' || c == '\t' || c == '\n' || c == '\x0d' || c == '\x0b' || c == '\x0c'

/-- Python `str.strip()`. -/
def pyStrip (s : String) : String :=
  String.mk (((s.data.dropWhile isPyWhitespace).reverse.dropWhile
    isPyWhitespace).reverse)

/-- Membership in the character class `[A-Za-z0-9._-]`. -/
def isSafeChar (c : Char) : Bool :=
  ('A' ≤ c && c ≤ 'Z') || ('a' ≤ c && c ≤ 'z') || ('0' ≤ c && c ≤ '9') ||
    c == '.' || c == '_' || c == '-'

/-- `_safe_component`: strip, default to `"task"` when empty, then map
every character outside `[A-Za-z0-9._-]` to `_`
(`re.sub` with a single-character negated class rewrites per character). -/
def safe_component (value : String) : String :=
  let v := pyStrip value
  let v := if v = "" then "task" else v
  String.mk (v.data.map (fun c => if isSafeChar c then c else '_'))

/-- `_filename_for`: `f"{subject_slug}-{id_slug}.md"`. -/
def filename_for (item : TodoItem) : String :=
  safe_component item.subject ++ "-" ++ safe_component item.message_id ++ ".md"

/-- Filename suffix test, modelling the `*.md` glob. -/
def strEndsWith (s suffix : String) : Bool :=
  suffix.data.isSuffixOf s.data

/-- One iteration of the write loop: write (or overwrite) the item's
file and append its path to `written_paths`. -/
def exportStep (render : TodoItem → String)
    (acc : List (String × String) × List String) (item : TodoItem) :
    List (String × String) × List String :=
  (dictInsert (filename_for item) (render item) acc.1,
   acc.2 ++ [filename_for item])

/-- `OutlookTodoApp.export_active_markdown` on directory contents `dir`:
write a rendered file per active item (in `storage.all()` order), then
delete every `*.md` file not just written, and return the written paths
sorted (Python sorts `Path`s lexicographically). -/
def export_active_markdown (render : TodoItem → String) (st : AppState)
    (dir : List (String × String)) : List String × List (String × String) :=
  let active_items := (storAll st.items).filter (fun i => !i.completed)
  let writtenState := active_items.foldl (exportStep render) (dir, [])
  let dir2 := writtenState.1.filter
    (fun p => !(strEndsWith p.1 ".md") || writtenState.2.contains p.1)
  (List.insertionSort (· ≤ ·) writtenState.2, dir2)

/-! ## Helper lemmas -/

/-- After `d[k] = v`, the key `k` maps to `v`. -/
theorem find_dictInsert {α : Type} (k : String) (v : α) :
    ∀ l : List (String × α),
      (dictInsert k v l).find? (fun p => p.1 = k) = some (k, v) := by
  intro l
  unfold dictInsert
  by_cases h : l.any (fun p => decide (p.1 = k)) = true
  · simp only [h, if_true]
    induction l with
    | nil => simp at h
    | cons p rest ih =>
      by_cases hp : p.1 = k
      · simp [hp]
      · have hrest : rest.any (fun p => decide (p.1 = k)) = true := by
          simpa [hp] using h
        simp [List.find?, hp, ih hrest]
  · rw [if_neg h, List.find?_append]
    have hnone : l.find? (fun p => decide (p.1 = k)) = none := by
      rw [List.find?_eq_none]
      intro p hp hpk
      exact h (List.any_eq_true.mpr ⟨p, hp, hpk⟩)
    simp [hnone, List.find?]

/-- `dictInsert` never removes a key. -/
theorem storContains_dictInsert_mono (k' k : String) (v : TodoItem)
    (l : List (String × TodoItem)) (h : storContains l k = true) :
    storContains (dictInsert k' v l) k = true := by
  unfold storContains at h ⊢
  unfold dictInsert
  obtain ⟨p, hp, hpk⟩ := List.any_eq_true.mp h
  have hpk : p.1 = k := of_decide_eq_true hpk
  by_cases hc : l.any (fun p => decide (p.1 = k')) = true
  · simp only [hc, if_true]
    refine List.any_eq_true.mpr ⟨if p.1 = k' then (k', v) else p, List.mem_map.mpr ⟨p, hp, rfl⟩, ?_⟩
    by_cases hk' : p.1 = k'
    · rw [if_pos hk']
      simp [← hk', hpk]
    · rw [if_neg hk']
      simp [hpk]
  · simp only [hc, if_false]
    exact List.any_eq_true.mpr ⟨p, List.mem_append.mpr (.inl hp), by simp [hpk]⟩

/-- After `d[k] = v`, the dict contains `k`. -/
theorem storContains_dictInsert_self (k : String) (v : TodoItem)
    (l : List (String × TodoItem)) :
    storContains (dictInsert k v l) k = true := by
  have hf := find_dictInsert k v l
  have hm : (k, v) ∈ dictInsert k v l := List.mem_of_find?_eq_some hf
  exact List.any_eq_true.mpr ⟨(k, v), hm, by simp⟩

/-- Overwriting an existing key does not change the dict's size. -/
theorem dictInsert_length_of_contains {α : Type} (k : String) (v : α)
    (l : List (String × α)) (h : l.any (fun p => p.1 = k) = true) :
    (dictInsert k v l).length = l.length := by
  unfold dictInsert
  simp [h]

/-- `storGet` after `d[k] = v` returns `v`. -/
theorem storGet_dictInsert (k : String) (v : TodoItem)
    (l : List (String × TodoItem)) :
    storGet (dictInsert k v l) k = some v := by
  unfold storGet
  rw [find_dictInsert]
  rfl

/-- `storAll` returns as many records as the dict holds. -/
theorem storAll_length (items : List (String × TodoItem)) :
    (storAll items).length = items.length := by
  unfold storAll
  rw [List.length_insertionSort, List.length_map]

/-! ## C5 — naive-timestamp validation -/

/-- C5 counterexample: constructing a record whose `created_at` is
timezone-naive does not raise; `__post_init__` silently coerces it to
UTC, so the claim "construction raises for a naive `created_at`" is
false at this input. -/
theorem mk_naive_created_at_accepted :
    mkTodoItem "m1" "subj" "alice" ⟨0, some 0⟩ ⟨0, some 0⟩ "" none false
        ⟨7, none⟩ =
      .ok { message_id := "m1", subject := "subj", sender := "alice",
            received_at := ⟨0, some 0⟩, scheduled_for := ⟨0, some 0⟩,
            body_preview := "", web_link := none, completed := false,
            created_at := ⟨7, some 0⟩ } := rfl

/-- C5 (amended): construction fails with the naive-timestamp error
whenever `received_at` or `scheduled_for` is naive; a naive `created_at`
is instead coerced to UTC, and every successfully constructed record has
all three timestamps timezone-aware. -/
theorem mk_naive_validation (mid subj sender : String) (ra sf : PyDateTime)
    (bp : String) (wl : Option String) (c : Bool) (ca : PyDateTime) :
    ((ra.tz = none ∨ sf.tz = none) →
      mkTodoItem mid subj sender ra sf bp wl c ca = .error .naiveTimestamp) ∧
    (∀ r, mkTodoItem mid subj sender ra sf bp wl c ca = .ok r →
      r.received_at.tz ≠ none ∧ r.scheduled_for.tz ≠ none ∧
        r.created_at.tz ≠ none) := by
  constructor
  · rintro (h | h) <;> simp [mkTodoItem, h]
  · intro r hr
    unfold mkTodoItem at hr
    by_cases h1 : ra.tz.isNone
    · simp [h1] at hr
    · by_cases h2 : sf.tz.isNone
      · simp [h1, h2] at hr
      · simp only [h1, h2, Bool.false_eq_true, if_false, Except.ok.injEq] at hr
        subst hr
        refine ⟨by simpa [Option.isNone_iff_eq_none] using h1,
          by simpa [Option.isNone_iff_eq_none] using h2, ?_⟩
        by_cases h3 : ca.tz.isNone <;> simp [h3]
        simpa [Option.isNone_iff_eq_none] using h3

/-- C5 amended-claim witness at concrete inputs: a naive
`received_at` is rejected, and a fully-aware construction yields a
record with three aware timestamps. -/
theorem mk_naive_validation_witness :
    mkTodoItem "w" "s" "a" ⟨3, none⟩ ⟨0, some 0⟩ "" none false ⟨0, some 0⟩ =
        .error .naiveTimestamp ∧
      ∀ r, mkTodoItem "w" "s" "a" ⟨1, some 60⟩ ⟨0, some 0⟩ "" none false
          ⟨0, some 0⟩ = .ok r →
        r.received_at.tz ≠ none ∧ r.scheduled_for.tz ≠ none ∧
          r.created_at.tz ≠ none :=
  ⟨(mk_naive_validation "w" "s" "a" ⟨3, none⟩ ⟨0, some 0⟩ "" none false
      ⟨0, some 0⟩).1 (Or.inl rfl),
   (mk_naive_validation "w" "s" "a" ⟨1, some 60⟩ ⟨0, some 0⟩ "" none false
      ⟨0, some 0⟩).2⟩

/-! ## C3 — serialisation round-trip -/

/-- C3: for every validly constructed record (all three timestamps
timezone-aware, as `__post_init__` guarantees), `from_dict (to_dict r)`
returns `r` with every field — offsets included — equal. -/
theorem from_dict_to_dict_roundtrip (r : TodoItem) (now : PyDateTime)
    (h1 : r.received_at.tz ≠ none) (h2 : r.scheduled_for.tz ≠ none)
    (h3 : r.created_at.tz ≠ none) :
    TodoItem.from_dict r.to_dict now = .ok r := by
  obtain ⟨mid, subj, sender, ⟨w1, tz1⟩, ⟨w2, tz2⟩, bp, wl, c, ⟨w3, tz3⟩⟩ := r
  obtain ⟨o1, rfl⟩ := Option.ne_none_iff_exists'.mp h1
  obtain ⟨o2, rfl⟩ := Option.ne_none_iff_exists'.mp h2
  obtain ⟨o3, rfl⟩ := Option.ne_none_iff_exists'.mp h3
  rfl

/-- C3 witness: the round-trip evaluated at a concrete record with a
non-UTC offset. -/
theorem from_dict_to_dict_roundtrip_witness :
    TodoItem.from_dict
        (TodoItem.to_dict
          { message_id := "1", subject := "Subject 1", sender := "Alice",
            received_at := ⟨100, some 330⟩, scheduled_for := ⟨200, some (-90)⟩,
            body_preview := "Hello", web_link := some "https://x/1",
            completed := false, created_at := ⟨300, some 0⟩ }) ⟨0, some 0⟩ =
      .ok { message_id := "1", subject := "Subject 1", sender := "Alice",
            received_at := ⟨100, some 330⟩, scheduled_for := ⟨200, some (-90)⟩,
            body_preview := "Hello", web_link := some "https://x/1",
            completed := false, created_at := ⟨300, some 0⟩ } :=
  from_dict_to_dict_roundtrip _ _ (by simp) (by simp) (by simp)

/-! ## C2 / C7 — `mark_done` -/

/-- C2: for a stored, not-yet-completed record, `mark_done` calls the
gateway before any local mutation, so a failing gateway call propagates
and leaves the whole state — completed flag, in-memory dict, persisted
file and save counter — exactly as it was. -/
theorem mark_done_gateway_failure_untouched (gw : String → Except PyError Unit)
    (st : AppState) (mid : String) (item : TodoItem) (e : PyError)
    (hget : storGet st.items mid = some item) (hc : item.completed = false)
    (hgw : gw mid = .error e) :
    mark_done gw st mid = (.error e, st) := by
  simp [mark_done, hget, hc, hgw]

/-- C7: `mark_done` on an already-completed record returns that record
unchanged with the state untouched, for every gateway (in particular one
that would raise if called); on an id absent from the store it fails
with the not-found error, also leaving the state untouched. -/
theorem mark_done_idempotent_or_missing (gw : String → Except PyError Unit)
    (st : AppState) (mid : String) :
    (∀ item, storGet st.items mid = some item → item.completed = true →
      mark_done gw st mid = (.ok item, st)) ∧
    (storGet st.items mid = none →
      mark_done gw st mid = (.error (.notFound mid), st)) := by
  constructor
  · intro item hget hc
    simp [mark_done, hget, hc]
  · intro hget
    simp [mark_done, hget]

/-- Demo record used by the `mark_done` witnesses: already completed. -/
def doneItem : TodoItem :=
  { message_id := "1", subject := "Subject 1", sender := "Alice",
    received_at := ⟨100, some 0⟩, scheduled_for := ⟨100, some 0⟩,
    body_preview := "Hello", web_link := none, completed := true,
    created_at := ⟨100, some 0⟩ }

/-- Demo record used by the `mark_done` witnesses: still pending. -/
def pendingItem : TodoItem :=
  { message_id := "2", subject := "Subject 2", sender := "Bob",
    received_at := ⟨200, some 0⟩, scheduled_for := ⟨200, some 0⟩,
    body_preview := "", web_link := none, completed := false,
    created_at := ⟨200, some 0⟩ }

/-- Demo store holding one completed and one pending record. -/
def demoMarkState : AppState :=
  { items := [("1", doneItem), ("2", pendingItem)], savedFile := none,
    saveCount := 0 }

/-- A gateway stand-in that raises on every call. -/
def raisingGw : String → Except PyError Unit :=
  fun _ => .error (.gatewayFailure 500)

/-- C7 witness: concrete completed-id call (under the always-raising
gateway, so it also witnesses that no gateway call is issued) and
concrete missing-id call. -/
theorem mark_done_idempotent_or_missing_witness :
    mark_done raisingGw demoMarkState "1" = (.ok doneItem, demoMarkState) ∧
    mark_done raisingGw demoMarkState "zz" =
      (.error (.notFound "zz"), demoMarkState) :=
  ⟨(mark_done_idempotent_or_missing raisingGw demoMarkState "1").1 doneItem
      (by decide) rfl,
   (mark_done_idempotent_or_missing raisingGw demoMarkState "zz").2 (by decide)⟩

/-- C2 witness: the failing gateway leaves the concrete state untouched
on a pending record. -/
theorem mark_done_gateway_failure_untouched_witness :
    mark_done raisingGw demoMarkState "2" =
      (.error (.gatewayFailure 500), demoMarkState) :=
  mark_done_gateway_failure_untouched raisingGw demoMarkState "2" pendingItem
    (.gatewayFailure 500) (by decide) rfl rfl

/-! ## C10 — gateway message defaults -/

/-- A `Z`-suffixed or offset-less Graph timestamp parses to UTC with the
wall clock unchanged. -/
theorem parse_graph_datetime_utc (s : IsoTs)
    (h : s.suffix = .zulu ∨ s.suffix = .noOffset) :
    parse_graph_datetime s = ⟨s.wallMicro, some 0⟩ := by
  obtain ⟨w, sfx⟩ := s
  rcases h with h | h <;>
    · simp only at h
      subst h
      rfl

/-- `parse_graph_datetime` always returns an aware datetime. -/
theorem parse_graph_datetime_aware (s : IsoTs) :
    (parse_graph_datetime s).tz ≠ none := by
  obtain ⟨w, sfx⟩ := s
  cases sfx <;> simp [parse_graph_datetime, pyFromIsoformat]

/-- C10: `to_todo_payload` substitutes `"(no subject)"` for an absent or
empty subject, `"Unknown sender"` when neither a sender name nor address
is present, and interprets a `Z`-suffixed or offset-less
`receivedDateTime` as UTC; `received_at` is always timezone-aware, so
record construction never fails on a naive gateway timestamp. -/
theorem to_todo_payload_defaults (m : GraphMessage)
    (ds : Option PyDateTime) :
    ((m.subject = none ∨ m.subject = some "") →
      (to_todo_payload m ds).subject = "(no subject)") ∧
    ((∀ fd, m.fromAddr = some fd → ∀ ea, fd.emailAddress = some ea →
        ea.name = none ∧ ea.address = none) →
      (to_todo_payload m ds).sender = "Unknown sender") ∧
    ((m.receivedDateTime.suffix = .zulu ∨
        m.receivedDateTime.suffix = .noOffset) →
      (to_todo_payload m ds).received_at =
        ⟨m.receivedDateTime.wallMicro, some 0⟩) ∧
    (to_todo_payload m ds).received_at.tz ≠ none := by
  refine ⟨?_, ?_, ?_, ?_⟩
  · rintro (h | h) <;> simp [to_todo_payload, pyOrStr, h]
  · intro h
    simp only [to_todo_payload, extract_sender]
    rcases hf : m.fromAddr with _ | fd
    · rfl
    · rcases he : fd.emailAddress with _ | ea
      · simp [he, pyOrStr]
      · obtain ⟨hn, ha⟩ := h fd hf ea he
        simp [he, hn, ha, pyOrStr]
  · intro h
    have hu := parse_graph_datetime_utc m.receivedDateTime h
    simp [to_todo_payload, hu]
  · have ha := parse_graph_datetime_aware m.receivedDateTime
    simpa [to_todo_payload] using ha

/-- C10 witness: a message with absent subject and sender info and a
`Z`-suffixed timestamp gets all three defaults. -/
theorem to_todo_payload_defaults_witness :
    (to_todo_payload ⟨"9", none, none, ⟨100, .zulu⟩, none, none⟩
        none).subject = "(no subject)" ∧
    (to_todo_payload ⟨"9", none, none, ⟨100, .zulu⟩, none, none⟩
        none).sender = "Unknown sender" ∧
    (to_todo_payload ⟨"9", none, none, ⟨100, .zulu⟩, none, none⟩
        none).received_at = ⟨100, some 0⟩ :=
  ⟨(to_todo_payload_defaults _ none).1 (Or.inl rfl),
   (to_todo_payload_defaults _ none).2.1 (fun fd hfd => by cases hfd),
   (to_todo_payload_defaults _ none).2.2.1 (Or.inl rfl)⟩

/-! ## C9 — manual-add id collision -/

/-- C9: `add_manual_item` always synthesises the id
`manual-<len(all())+1>` and adds with `overwrite=True`; whenever the
store already contains that id the new record silently replaces the old
one — no duplicate-key error — and the store's size does not grow. -/
theorem add_manual_item_collision (st : AppState) (subject sender : String)
    (scheduled_for : PyDateTime) (body_preview : String)
    (web_link : Option String) (now : PyDateTime)
    (hsched : scheduled_for.tz ≠ none)
    (hcol : storContains st.items
      ("manual-" ++ toString ((storAll st.items).length + 1)) = true) :
    ∃ todo st',
      add_manual_item st subject sender scheduled_for body_preview web_link
          now = .ok (todo, st') ∧
      todo.message_id = "manual-" ++ toString ((storAll st.items).length + 1) ∧
      st'.items.length = st.items.length ∧
      storGet st'.items todo.message_id = some todo := by
  obtain ⟨o, ho⟩ := Option.ne_none_iff_exists'.mp hsched
  set mid := "manual-" ++ toString ((storAll st.items).length + 1) with hmid
  set todo : TodoItem :=
    { message_id := mid, subject, sender, received_at := scheduled_for,
      scheduled_for, body_preview, web_link, completed := false,
      created_at :=
        if now.tz.isNone then ⟨now.wallMicro, some 0⟩ else now } with htodo
  have hmk : mkTodoItem mid subject sender scheduled_for scheduled_for
      body_preview web_link false now = .ok todo := by
    rw [htodo]
    unfold mkTodoItem
    rw [ho]
    rfl
  refine ⟨todo, storSave { st with items := dictInsert mid todo st.items },
    ?_, rfl, ?_, ?_⟩
  · simp only [add_manual_item]
    rw [← hmid, hmk]
    rfl
  · exact dictInsert_length_of_contains mid todo st.items hcol
  · exact storGet_dictInsert mid todo st.items

/-- Demo store for the C9 witness: removing an item after two manual
adds makes `len(all())+1` collide with the surviving id `manual-2`. -/
def collisionState : AppState :=
  { items := [("manual-2",
      { message_id := "manual-2", subject := "Old", sender := "Bob",
        received_at := ⟨50, some 0⟩, scheduled_for := ⟨50, some 0⟩,
        body_preview := "", web_link := none, completed := false,
        created_at := ⟨50, some 0⟩ })],
    savedFile := none, saveCount := 0 }

/-- C9 witness: on the collision store the add succeeds, reuses the id
`manual-2`, and the store size stays 1 — the old record is replaced. -/
theorem add_manual_item_collision_witness :
    ∃ todo st',
      add_manual_item collisionState "New" "Carol" ⟨90, some 0⟩ "" none
          ⟨91, some 0⟩ = .ok (todo, st') ∧
      todo.message_id =
        "manual-" ++ toString ((storAll collisionState.items).length + 1) ∧
      st'.items.length = collisionState.items.length ∧
      storGet st'.items todo.message_id = some todo :=
  add_manual_item_collision collisionState "New" "Carol" ⟨90, some 0⟩ ""
    none ⟨91, some 0⟩ (by simp) (by decide)

/-! ## Sync loop lemmas (C1, C8) -/

/-- The sync loop never removes a key from the store. -/
theorem syncLoop_contains_mono (schedule_for : Option PyDateTime)
    (now : PyDateTime) :
    ∀ (l : List GraphMessage) (items : List (String × TodoItem))
      (acc : List TodoItem) (items' : List (String × TodoItem))
      (acc' : List TodoItem),
      syncLoop schedule_for now l items acc = .ok (items', acc') →
      ∀ k, storContains items k = true → storContains items' k = true := by
  intro l
  induction l with
  | nil =>
    intro items acc items' acc' h k hk
    simp only [syncLoop, Except.ok.injEq, Prod.mk.injEq] at h
    exact h.1 ▸ hk
  | cons m rest ih =>
    intro items acc items' acc' h k hk
    rw [syncLoop] at h
    by_cases hc : storContains items m.id = true
    · rw [if_pos hc] at h
      exact ih items acc items' acc' h k hk
    · rw [if_neg hc] at h
      cases hb : buildTodo m schedule_for now with
      | error e => rw [hb] at h; cases h
      | ok todo =>
        rw [hb] at h
        exact ih _ _ items' acc' h k
          (storContains_dictInsert_mono m.id k todo items hk)

/-- After a successful sync loop, every processed message id is in the
store. -/
theorem syncLoop_covers (schedule_for : Option PyDateTime)
    (now : PyDateTime) :
    ∀ (l : List GraphMessage) (items : List (String × TodoItem))
      (acc : List TodoItem) (items' : List (String × TodoItem))
      (acc' : List TodoItem),
      syncLoop schedule_for now l items acc = .ok (items', acc') →
      ∀ m ∈ l, storContains items' m.id = true := by
  intro l
  induction l with
  | nil => intro items acc items' acc' _ m hm; cases hm
  | cons m rest ih =>
    intro items acc items' acc' h m' hm'
    rw [syncLoop] at h
    rcases List.mem_cons.mp hm' with rfl | hm'
    · by_cases hc : storContains items m'.id = true
      · rw [if_pos hc] at h
        exact syncLoop_contains_mono schedule_for now rest items acc items'
          acc' h m'.id hc
      · rw [if_neg hc] at h
        cases hb : buildTodo m' schedule_for now with
        | error e => rw [hb] at h; cases h
        | ok todo =>
          rw [hb] at h
          exact syncLoop_contains_mono schedule_for now rest _ _ items' acc' h
            m'.id (storContains_dictInsert_self m'.id todo items)
    · by_cases hc : storContains items m.id = true
      · rw [if_pos hc] at h
        exact ih items acc items' acc' h m' hm'
      · rw [if_neg hc] at h
        cases hb : buildTodo m schedule_for now with
        | error e => rw [hb] at h; cases h
        | ok todo =>
          rw [hb] at h
          exact ih _ _ items' acc' h m' hm'

/-- When every message id is already stored, the loop is the identity:
everything is skipped, nothing is built. -/
theorem syncLoop_all_contained (schedule_for : Option PyDateTime)
    (now : PyDateTime) :
    ∀ (l : List GraphMessage) (items : List (String × TodoItem))
      (acc : List TodoItem),
      (∀ m ∈ l, storContains items m.id = true) →
      syncLoop schedule_for now l items acc = .ok (items, acc) := by
  intro l
  induction l with
  | nil => intro items acc _; rfl
  | cons m rest ih =>
    intro items acc h
    rw [syncLoop, if_pos (h m (List.mem_cons_self m rest))]
    exact ih items acc (fun m' hm' => h m' (List.mem_cons_of_mem m hm'))

/-- The loop's accumulator only grows, and the store is untouched
whenever nothing was accumulated. -/
theorem syncLoop_acc_growth (schedule_for : Option PyDateTime)
    (now : PyDateTime) :
    ∀ (l : List GraphMessage) (items : List (String × TodoItem))
      (acc : List TodoItem) (items' : List (String × TodoItem))
      (acc' : List TodoItem),
      syncLoop schedule_for now l items acc = .ok (items', acc') →
      ∃ added, acc' = acc ++ added ∧ (added = [] → items' = items) := by
  intro l
  induction l with
  | nil =>
    intro items acc items' acc' h
    simp only [syncLoop, Except.ok.injEq, Prod.mk.injEq] at h
    exact ⟨[], by simp [h.2.symm], fun _ => h.1.symm⟩
  | cons m rest ih =>
    intro items acc items' acc' h
    rw [syncLoop] at h
    by_cases hc : storContains items m.id = true
    · rw [if_pos hc] at h
      exact ih items acc items' acc' h
    · rw [if_neg hc] at h
      cases hb : buildTodo m schedule_for now with
      | error e => rw [hb] at h; cases h
      | ok todo =>
        rw [hb] at h
        obtain ⟨added, hacc, _⟩ := ih _ _ items' acc' h
        exact ⟨todo :: added, by simp [hacc], fun hnil => by cases hnil⟩

/-! ## C1 — idempotent sync, C8 — save-on-change -/

/-- C1: after any successful sync, re-running sync against the same
gateway snapshot yields zero new records — every fetched id is already
stored and skipped, not an error — and returns the store state
unchanged (same records, same persisted file, no extra save). -/
theorem sync_idempotent (msgs : List GraphMessage) (limit : Nat)
    (schedule_for : Option PyDateTime) (now now2 : PyDateTime)
    (st : AppState) (r1 : List TodoItem) (st1 : AppState)
    (h : sync_unread_emails msgs limit schedule_for now st = .ok (r1, st1)) :
    sync_unread_emails msgs limit schedule_for now2 st1 = .ok ([], st1) := by
  unfold sync_unread_emails at h ⊢
  cases hloop : syncLoop schedule_for now (msgs.take limit) st.items [] with
  | error e => rw [hloop] at h; cases h
  | ok p =>
    obtain ⟨items', newItems⟩ := p
    rw [hloop] at h
    simp only [Except.ok.injEq, Prod.mk.injEq] at h
    obtain ⟨hr, hst⟩ := h
    have hitems : st1.items = items' := by
      rw [← hst]
      cases hne : newItems.isEmpty <;> simp [storSave]
    have hcov : ∀ m ∈ msgs.take limit, storContains st1.items m.id = true := by
      rw [hitems]
      exact syncLoop_covers schedule_for now _ _ _ _ _ hloop
    rw [syncLoop_all_contained schedule_for now2 _ _ _ hcov]
    rfl

/-- C8: sync does not save when no new record was produced (state fully
unchanged, file not rewritten), and saves exactly once — serialising the
final store, i.e. after all inserts — when at least one was. -/
theorem sync_save_on_change (msgs : List GraphMessage) (limit : Nat)
    (schedule_for : Option PyDateTime) (now : PyDateTime) (st : AppState)
    (r : List TodoItem) (st' : AppState)
    (h : sync_unread_emails msgs limit schedule_for now st = .ok (r, st')) :
    (r = [] → st' = st) ∧
    (r ≠ [] → st'.saveCount = st.saveCount + 1 ∧
      st'.savedFile = some (st'.items.map (fun p => p.2.to_dict))) := by
  unfold sync_unread_emails at h
  cases hloop : syncLoop schedule_for now (msgs.take limit) st.items [] with
  | error e => rw [hloop] at h; cases h
  | ok p =>
    obtain ⟨items', newItems⟩ := p
    rw [hloop] at h
    simp only [Except.ok.injEq, Prod.mk.injEq] at h
    obtain ⟨hr, hst⟩ := h
    subst hr
    constructor
    · intro hnil
      subst hnil
      obtain ⟨added, hacc, hid⟩ :=
        syncLoop_acc_growth schedule_for now _ _ _ _ _ hloop
      have hadded : added = [] := by simpa using hacc.symm
      have hitems : items' = st.items := hid hadded
      rw [← hst, hitems]
      rfl
    · intro hne
      have hfalse : newItems.isEmpty = false := by
        cases newItems with
        | nil => exact absurd rfl hne
        | cons a l => rfl
      rw [← hst]
      simp only [hfalse, Bool.false_eq_true, if_false]
      exact ⟨rfl, rfl⟩

/-- Demo gateway snapshot for the sync witnesses. -/
def demoMsg : GraphMessage :=
  { id := "1", subject := some "Subject 1",
    fromAddr := some ⟨some ⟨some "Alice", none⟩⟩,
    receivedDateTime := ⟨100, .zulu⟩, bodyPreview := some "Hello",
    webLink := some "https://outlook.example/1" }

/-- Wall clock used as `datetime.now` in the sync witnesses. -/
def demoNow : PyDateTime := ⟨500, some 0⟩

/-- Empty initial store for the sync witnesses. -/
def syncSt0 : AppState := ⟨[], none, 0⟩

/-- The record the first sync run creates from `demoMsg`. -/
def demoTodo : TodoItem :=
  { message_id := "1", subject := "Subject 1", sender := "Alice",
    received_at := ⟨100, some 0⟩, scheduled_for := ⟨100, some 0⟩,
    body_preview := "Hello", web_link := some "https://outlook.example/1",
    completed := false, created_at := ⟨500, some 0⟩ }

/-- Store state after the first sync run of the witnesses. -/
def syncSt1 : AppState := ⟨[("1", demoTodo)], some [demoTodo.to_dict], 1⟩

/-- C1 witness: the second run over the same one-message snapshot
returns no new records and the state of the first run, unchanged. -/
theorem sync_idempotent_witness :
    sync_unread_emails [demoMsg] 25 none demoNow syncSt1 = .ok ([], syncSt1) :=
  sync_idempotent [demoMsg] 25 none demoNow demoNow syncSt0 [demoTodo]
    syncSt1 (by rfl)

/-- C8 witness: the run that created one record saved exactly once,
serialising the post-insert store. -/
theorem sync_save_on_change_witness :
    syncSt1.saveCount = syncSt0.saveCount + 1 ∧
    syncSt1.savedFile = some (syncSt1.items.map (fun p => p.2.to_dict)) :=
  (sync_save_on_change [demoMsg] 25 none demoNow syncSt0 [demoTodo] syncSt1
    (by rfl)).2 (List.cons_ne_nil _ _)

/-! ## C6 — ordering of `TodoStorage.all` -/

/-- Record with id `a` used by the C6 counterexample. -/
def c6ItemA : TodoItem :=
  { message_id := "a", subject := "A", sender := "s",
    received_at := ⟨0, some 0⟩, scheduled_for := ⟨0, some 0⟩,
    body_preview := "", web_link := none, completed := false,
    created_at := ⟨0, some 0⟩ }

/-- Record with id `b`, same `scheduled_for` as `c6ItemA`. -/
def c6ItemB : TodoItem :=
  { message_id := "b", subject := "B", sender := "s",
    received_at := ⟨0, some 0⟩, scheduled_for := ⟨0, some 0⟩,
    body_preview := "", web_link := none, completed := false,
    created_at := ⟨0, some 0⟩ }

/-- A store whose insertion order is `b` before `a`. -/
def c6Items : List (String × TodoItem) := [("b", c6ItemB), ("a", c6ItemA)]

/-- C6 counterexample: two records with equal `scheduled_for` inserted
in the order `b`, `a` come back from `all()` still as `b`, `a` — not in
ascending `message_id` order, refuting the claimed deterministic
tie-break (`sorted` only receives the `scheduled_for` key and is
stable). -/
theorem storAll_tie_not_by_message_id :
    c6ItemB.scheduled_for = c6ItemA.scheduled_for ∧
    (storAll c6Items).map TodoItem.message_id = ["b", "a"] ∧
    ¬ ("b" : String) ≤ "a" :=
  ⟨rfl, rfl, by
    simp only [String.le_iff_toList_le]
    decide⟩

/-- Inserting an element whose key equals `k` puts it in front of the
filtered-by-`k` sublist (every element it passes over has a strictly
smaller key). -/
theorem filter_orderedInsert_eq_key (x : TodoItem) (k : Int)
    (hx : x.scheduled_for.utcMicro = k) :
    ∀ l : List TodoItem,
      (List.orderedInsert schedLe x l).filter
          (fun a => a.scheduled_for.utcMicro == k) =
        x :: l.filter (fun a => a.scheduled_for.utcMicro == k) := by
  intro l
  induction l with
  | nil => simp [List.orderedInsert, hx]
  | cons b l ih =>
    by_cases hle : schedLe x b
    · rw [List.orderedInsert_of_le _ _ hle]
      simp [List.filter_cons, hx]
    · have hrw : List.orderedInsert schedLe x (b :: l) =
          b :: List.orderedInsert schedLe x l := by
        simp [List.orderedInsert, hle]
      have hblt : b.scheduled_for.utcMicro < k := by
        have h2 : b.scheduled_for.utcMicro < x.scheduled_for.utcMicro :=
          not_le.mp hle
        rw [hx] at h2
        exact h2
      have hb : (b.scheduled_for.utcMicro == k) = false :=
        beq_eq_false_iff_ne.mpr (ne_of_lt hblt)
      rw [hrw]
      simp [List.filter_cons, hb, ih]

/-- Inserting an element whose key differs from `k` leaves the
filtered-by-`k` sublist unchanged. -/
theorem filter_orderedInsert_ne_key (x : TodoItem) (k : Int)
    (hx : x.scheduled_for.utcMicro ≠ k) :
    ∀ l : List TodoItem,
      (List.orderedInsert schedLe x l).filter
          (fun a => a.scheduled_for.utcMicro == k) =
        l.filter (fun a => a.scheduled_for.utcMicro == k) := by
  intro l
  have hxb : (x.scheduled_for.utcMicro == k) = false :=
    beq_eq_false_iff_ne.mpr hx
  induction l with
  | nil => simp [List.orderedInsert, hxb]
  | cons b l ih =>
    by_cases hle : schedLe x b
    · rw [List.orderedInsert_of_le _ _ hle]
      simp [List.filter_cons, hxb]
    · have hrw : List.orderedInsert schedLe x (b :: l) =
          b :: List.orderedInsert schedLe x l := by
        simp [List.orderedInsert, hle]
      rw [hrw]
      simp [List.filter_cons, ih]

/-- The stable sort of `all()` keeps, for every key value, the original
relative order of the records with that key. -/
theorem filter_insertionSort_key (k : Int) :
    ∀ l : List TodoItem,
      (List.insertionSort schedLe l).filter
          (fun a => a.scheduled_for.utcMicro == k) =
        l.filter (fun a => a.scheduled_for.utcMicro == k) := by
  intro l
  induction l with
  | nil => rfl
  | cons x l ih =>
    rw [List.insertionSort]
    by_cases hx : x.scheduled_for.utcMicro = k
    · rw [filter_orderedInsert_eq_key x k hx, ih]
      simp [List.filter_cons, hx]
    · rw [filter_orderedInsert_ne_key x k hx, ih]
      simp [List.filter_cons, hx]

/-- C6 (amended): `all()` returns the held records sorted ascending by
`scheduled_for`, as a permutation of the store's values; ties are broken
by store insertion order (the sort is stable), not by `message_id`. -/
theorem storAll_sorted_stable (items : List (String × TodoItem)) :
    (storAll items).Sorted schedLe ∧
    (storAll items).Perm (items.map Prod.snd) ∧
    ∀ k : Int,
      (storAll items).filter (fun a => a.scheduled_for.utcMicro == k) =
        (items.map Prod.snd).filter
          (fun a => a.scheduled_for.utcMicro == k) :=
  ⟨List.sorted_insertionSort schedLe (items.map Prod.snd),
   List.perm_insertionSort schedLe (items.map Prod.snd),
   fun k => filter_insertionSort_key k (items.map Prod.snd)⟩

/-! ## C4 — export mirroring -/

/-- Every filename the exporter derives ends in `.md`. -/
theorem strEndsWith_filename_for (i : TodoItem) :
    strEndsWith (filename_for i) ".md" = true := by
  unfold filename_for strEndsWith
  rw [String.data_append]
  rw [List.isSuffixOf_iff_suffix]
  exact List.suffix_append _ _

/-- Key set of a dict after an assignment: the old keys plus the
assigned one. -/
theorem mem_keys_dictInsert {α : Type} (k f : String) (v : α)
    (l : List (String × α)) :
    f ∈ (dictInsert k v l).map Prod.fst ↔ f ∈ l.map Prod.fst ∨ f = k := by
  unfold dictInsert
  by_cases h : l.any (fun p => decide (p.1 = k)) = true
  · rw [if_pos h, List.map_map]
    constructor
    · intro hf
      obtain ⟨p, hp, hpf⟩ := List.mem_map.mp hf
      simp only [Function.comp_apply] at hpf
      by_cases hpk : p.1 = k
      · right
        rw [if_pos hpk] at hpf
        exact hpf.symm
      · left
        rw [if_neg hpk] at hpf
        exact List.mem_map.mpr ⟨p, hp, hpf⟩
    · intro hf
      rcases hf with hf | hfk
      · obtain ⟨p, hp, hpf⟩ := List.mem_map.mp hf
        refine List.mem_map.mpr ⟨p, hp, ?_⟩
        simp only [Function.comp_apply]
        by_cases hpk : p.1 = k
        · rw [if_pos hpk]
          rw [hpk] at hpf
          exact hpf
        · rw [if_neg hpk]
          exact hpf
      · obtain ⟨p, hp, hpk⟩ := List.any_eq_true.mp h
        have hpk : p.1 = k := of_decide_eq_true hpk
        refine List.mem_map.mpr ⟨p, hp, ?_⟩
        simp only [Function.comp_apply]
        rw [if_pos hpk]
        exact hfk.symm
  · rw [if_neg h]
    simp [List.mem_append, eq_comm]

/-- The write loop appends exactly the active filenames to
`written_paths`. -/
theorem exportStep_foldl_written (render : TodoItem → String) :
    ∀ (active : List TodoItem) (dir : List (String × String))
      (acc : List String),
      (active.foldl (exportStep render) (dir, acc)).2 =
        acc ++ active.map filename_for := by
  intro active
  induction active with
  | nil => intro dir acc; simp
  | cons i rest ih =>
    intro dir acc
    rw [List.foldl_cons, exportStep, ih]
    simp

/-- Key set of the directory after the write loop: the old keys plus the
written filenames. -/
theorem exportStep_foldl_keys (render : TodoItem → String) :
    ∀ (active : List TodoItem) (dir : List (String × String))
      (acc : List String) (f : String),
      f ∈ (active.foldl (exportStep render) (dir, acc)).1.map Prod.fst ↔
        f ∈ dir.map Prod.fst ∨ f ∈ active.map filename_for := by
  intro active
  induction active with
  | nil => intro dir acc f; simp
  | cons i rest ih =>
    intro dir acc f
    rw [List.foldl_cons, exportStep, ih, mem_keys_dictInsert]
    simp only [List.map_cons, List.mem_cons]
    tauto

/-- C4: after `export_active_markdown` the `*.md` file set of the
directory is exactly the active filenames — one file per non-completed
record, every other `.md` file deleted (so with no active records the
directory keeps no `.md` file) — and the returned value is the sorted
list of written paths. -/
theorem export_active_mirrors (render : TodoItem → String) (st : AppState)
    (dir : List (String × String)) :
    (export_active_markdown render st dir).1 =
      List.insertionSort (· ≤ ·)
        (((storAll st.items).filter (fun i => !i.completed)).map
          filename_for) ∧
    ∀ f : String,
      (f ∈ (export_active_markdown render st dir).2.map Prod.fst ∧
          strEndsWith f ".md" = true) ↔
        f ∈ ((storAll st.items).filter (fun i => !i.completed)).map
          filename_for := by
  set active := (storAll st.items).filter (fun i => !i.completed) with hactive
  set W := active.foldl (exportStep render) (dir, []) with hWdef
  have hw : W.2 = active.map filename_for := by
    rw [hWdef, exportStep_foldl_written render active dir [], List.nil_append]
  constructor
  · simp only [export_active_markdown, ← hactive, ← hWdef]
    rw [hw]
  · intro f
    simp only [export_active_markdown, ← hactive, ← hWdef]
    constructor
    · rintro ⟨hmem, hmd⟩
      obtain ⟨p, hp, rfl⟩ := List.mem_map.mp hmem
      have hp' := List.mem_filter.mp hp
      have hpred := hp'.2
      rw [hmd] at hpred
      simp only [Bool.not_true, Bool.false_or] at hpred
      have hmem2 : p.1 ∈ W.2 := List.elem_iff.mp hpred
      rwa [hw] at hmem2
    · intro hf
      have hmd : strEndsWith f ".md" = true := by
        obtain ⟨i, _, rfl⟩ := List.mem_map.mp hf
        exact strEndsWith_filename_for i
      refine ⟨?_, hmd⟩
      have hkey : f ∈ W.1.map Prod.fst := by
        rw [hWdef]
        exact (exportStep_foldl_keys render active dir [] f).mpr (Or.inr hf)
      obtain ⟨p, hp, rfl⟩ := List.mem_map.mp hkey
      refine List.mem_map.mpr ⟨p, ?_, rfl⟩
      refine List.mem_filter.mpr ⟨hp, ?_⟩
      have hcontains : W.2.contains p.1 = true := by
        rw [hw]
        exact List.elem_iff.mpr hf
      rw [hcontains]
      simp

end OutlookTodo
